import Mathlib

/-!
Verification of the claims-automation repository: a shallow embedding of the
status aggregator, the spreadsheet status writer, the element-resolver loop,
the patient-processor branch logic, the row-processor filter policy and the
session gates, together with theorems settling the specification claims.
-/

/-- One per-patient processing result, as produced by `processPatientClaim` /
`processRow` (only the fields the status writer consumes). -/
structure PatientResult where
  rowNumber : Nat
  status : String
  errorMessage : String
deriving DecidableEq, Repr

/-- The JS aggregator reads `r.status || 'Unknown'`: an empty status string is
replaced by `"Unknown"`. -/
def statusOf (r : PatientResult) : String :=
  if r.status = "" then "Unknown" else r.status

/-- Insertion into a JS `Set`, element by element: keep an element only when
it has not been seen before. -/
def dedupAux (seen : List String) : List String → List String
  | [] => []
  | x :: xs => if seen.contains x then dedupAux seen xs else x :: dedupAux (x :: seen) xs

/-- `[...new Set(xs)]` in JS: distinct elements in order of first occurrence. -/
def uniqueKeepFirst (l : List String) : List String :=
  dedupAux [] l

/-- `aggregateStatus` from `reportGenerator.js` (lines 195-231): reduce the
results recorded for one spreadsheet row to a single display string.
Priority: Billed > Appt. Cancelled > Success > Failed > others. -/
def aggregateStatus (results : List PatientResult) : String :=
  if results.length = 0 then "Unknown"
  else if (uniqueKeepFirst (results.map statusOf)).contains "Billed" then
    if (uniqueKeepFirst (results.map statusOf)).length = 1 then "Billed"
    else "Billed (" ++ toString results.length ++ " patients)"
  else if (uniqueKeepFirst (results.map statusOf)).contains "Appt. Cancelled" then
    if (uniqueKeepFirst (results.map statusOf)).length = 1 then "Appt. Cancelled"
    else "Appt. Cancelled (" ++ toString results.length ++ " patients)"
  else if (uniqueKeepFirst (results.map statusOf)).contains "Success" then
    if (uniqueKeepFirst (results.map statusOf)).length = 1 then "Success"
    else "Success (" ++ toString results.length ++ " patients)"
  else if (uniqueKeepFirst (results.map statusOf)).contains "Failed" then
    if ((results.map statusOf).filter (fun s => s == "Failed")).length = results.length
    then "Failed"
    else "Failed (" ++ toString ((results.map statusOf).filter (fun s => s == "Failed")).length
         ++ "/" ++ toString results.length ++ " patients)"
  else if (uniqueKeepFirst (results.map statusOf)).length > 1 then
    String.intercalate ", " (uniqueKeepFirst (results.map statusOf))
  else (uniqueKeepFirst (results.map statusOf)).headD ""

/-- The aggregation rule exactly as the specification words it (claim C1):
plain name when exactly one distinct status is present, otherwise the
highest-priority distinct status with the documented composite formats,
otherwise the distinct statuses joined with a comma. -/
def aggregateStatusClaim (statuses : List String) : String :=
  if (uniqueKeepFirst statuses).length = 1 then (uniqueKeepFirst statuses).headD ""
  else if (uniqueKeepFirst statuses).contains "Billed" then
    "Billed (" ++ toString statuses.length ++ " patients)"
  else if (uniqueKeepFirst statuses).contains "Appt. Cancelled" then
    "Appt. Cancelled (" ++ toString statuses.length ++ " patients)"
  else if (uniqueKeepFirst statuses).contains "Success" then
    "Success (" ++ toString statuses.length ++ " patients)"
  else if (uniqueKeepFirst statuses).contains "Failed" then
    "Failed (" ++ toString ((statuses.filter (fun s => s == "Failed")).length)
    ++ "/" ++ toString statuses.length ++ " patients)"
  else String.intercalate ", " (uniqueKeepFirst statuses)

/-- ASCII lower-casing, character by character (JS `toLowerCase` on the
ASCII header names involved). -/
def jsToLower (s : String) : String :=
  String.mk (s.data.map Char.toLower)

/-- ASCII upper-casing, character by character (JS `toUpperCase`). -/
def jsToUpper (s : String) : String :=
  String.mk (s.data.map Char.toUpper)

/-- JS `String.prototype.trim`: drop whitespace from both ends. -/
def jsTrim (s : String) : String :=
  String.mk (((s.data.dropWhile Char.isWhitespace).reverse.dropWhile Char.isWhitespace).reverse)

/-- The header test of `updateOriginalExcel`:
`h && h.toString().toLowerCase() === 'status'`. -/
def isStatusHeader (h : String) : Bool :=
  !(h == "") && (jsToLower h == "status")

/-- JS `Array.prototype.findIndex` over the header row (as an `Option`). -/
def findStatusIdx : List String → Option Nat
  | [] => none
  | h :: t => if isStatusHeader h then some 0 else (findStatusIdx t).map (fun k => k + 1)

/-- `while (row.length < n) row.push('')`. -/
def padTo (n : Nat) (row : List String) : List String :=
  row ++ List.replicate (n - row.length) ""

/-- The add-at-end branch of `updateOriginalExcel` (lines 169-179): append a
`"Status"` header and pad every data row to the new header length; returns the
new sheet and the status column index. -/
def addStatusAtEnd : List (List String) → List (List String) × Nat
  | [] => ([], 0)
  | h :: t => ((h ++ ["Status"]) :: t.map (fun r => padTo (h.length + 1) r), h.length)

/-- Lines 154-179 of `reportGenerator.js`: find the Status column; if it exists
but is not last, splice it out of every row and re-append it at the end; if it
does not exist, append it at the end; if it is already last, keep it. -/
def fixStatusColumn (rows : List (List String)) : List (List String) × Nat :=
  match findStatusIdx (rows.headD []) with
  | some j =>
      if j + 1 < (rows.headD []).length then
        addStatusAtEnd (rows.map (fun r => r.eraseIdx j))
      else (rows, j)
  | none => addStatusAtEnd rows

/-- The `resultsMap` lookup (lines 181-191): the results recorded for one
Excel row number, in input order. -/
def resultsFor (results : List PatientResult) (rowNum : Nat) : List PatientResult :=
  results.filter (fun r => r.rowNumber == rowNum)

/-- Lines 234-256, body of the per-row loop: pad the row up to the status
column, then write the aggregated status when results exist for this Excel row
number, else write `"Not Processed"` only into an empty cell. -/
def writeStatusCell (j : Nat) (results : List PatientResult) (excelRowNumber : Nat)
    (row : List String) : List String :=
  let row1 := padTo (j + 1) row
  if (resultsFor results excelRowNumber).length > 0 then
    row1.set j (aggregateStatus (resultsFor results excelRowNumber))
  else if row1.getD j "" == "" then
    row1.set j "Not Processed"
  else row1

/-- The per-row loop of `updateOriginalExcel`: data row `i` (0-based within the
data rows) is keyed by Excel row number `i + 2`. -/
def writeRowsFrom (j : Nat) (results : List PatientResult) : Nat → List (List String) → List (List String)
  | _, [] => []
  | n, row :: rest => writeStatusCell j results n row :: writeRowsFrom j results (n + 1) rest

/-- The row transformation performed by `updateOriginalExcel` on the sheet's
cell matrix (header row first). -/
def updateExcelRows (rows : List (List String)) (results : List PatientResult) :
    List (List String) :=
  match fixStatusColumn rows with
  | (rows1, j) =>
    match rows1 with
    | [] => []
    | h :: t => h :: writeRowsFrom j results 2 t

/-- A worksheet: the cell matrix plus the optional `!cols` column widths
(the `wch` values). -/
structure Sheet where
  rows : List (List String)
  cols : Option (List Nat)
deriving DecidableEq, Repr

/-- Lines 261-275 of `reportGenerator.js`: copy the existing widths and force
the status column's width to the default 15 (appending when the width list is
too short); with no existing widths, default every column to 15. -/
def updateCols (cols : Option (List Nat)) (finalHeaders : List String) (j : Nat) : List Nat :=
  match cols with
  | some cs => if cs.length ≤ j then cs ++ [15] else cs.set j 15
  | none => (finalHeaders.map (fun _ => 15)).set j 15

/-- `updateOriginalExcel` on a whole sheet: rewrite the rows and the widths. -/
def updateOriginalExcel (s : Sheet) (results : List PatientResult) : Sheet :=
  match fixStatusColumn s.rows with
  | (rows1, j) =>
    Sheet.mk (match rows1 with
              | [] => []
              | h :: t => h :: writeRowsFrom j results 2 t)
      (some (updateCols s.cols (rows1.headD []) j))

/-- The last cell of every row (used to talk about the trailing status
column's content). -/
def lastColumn (rows : List (List String)) : List String :=
  rows.map (fun r => r.getLastD "")

/-- Outcome of one resolver strategy: a located-and-verified handle, or a
failure reason (the caught error message). -/
inductive StrategyOutcome (α : Type) where
  | ok (handle : α)
  | err (msg : String)
deriving DecidableEq, Repr

/-- Outcome of the whole resolver loop. -/
inductive ResolveOutcome (α : Type) where
  | resolved (handle : α) (attempts : Nat)
  | failed (message : String) (attempts : Nat)
  | noStrategies
deriving DecidableEq, Repr

/-- Lines 272-287 of the automation script (`clickCustomIdFilter`): try each
strategy in order; the first success wins; on the last failure throw an error
built from the LAST caught message only. -/
def resolveLoop {α : Type} (attempts : Nat) : List (StrategyOutcome α) → ResolveOutcome α
  | [] => ResolveOutcome.noStrategies
  | StrategyOutcome.ok h :: _ => ResolveOutcome.resolved h (attempts + 1)
  | StrategyOutcome.err m :: rest =>
      match rest with
      | [] => ResolveOutcome.failed
          ("All strategies failed to find Custom ID filter. Last error: " ++ m) (attempts + 1)
      | r :: rs => resolveLoop (attempts + 1) (r :: rs)

/-- The element resolver over an ordered strategy list. -/
def clickCustomIdFilterModel {α : Type} (strategies : List (StrategyOutcome α)) :
    ResolveOutcome α :=
  resolveLoop 0 strategies

/-- Whether `ns` is a prefix of `hs` (character lists). -/
def listStarts : List Char → List Char → Bool
  | [], _ => true
  | _ :: _, [] => false
  | a :: as, b :: bs => a == b && listStarts as bs

/-- Whether `ns` occurs contiguously inside `hs`. -/
def listHasSub (ns : List Char) : List Char → Bool
  | [] => listStarts ns []
  | h :: rest => listStarts ns (h :: rest) || listHasSub ns rest

/-- Substring test used to state what a failure message carries. -/
def strContains (needle hay : String) : Bool :=
  listHasSub needle.data hay.data

/-- The per-patient inputs consumed by `processPatientClaim`'s branch logic:
the raw billing classification, the DOS value and the ICD value of the row. -/
structure PatientInput where
  billingStatusRaw : String
  dosValue : String
  icdValue : String
deriving DecidableEq, Repr

/-- Lines 459-466: the billing status read from the row, trimmed. -/
def excelBillingStatusOf (raw : String) : String := jsTrim raw

/-- Line 468: `excelBillingStatus.toUpperCase() !== 'QHSLAB'`. -/
def isCancelledAppointment (raw : String) : Bool :=
  jsToUpper (excelBillingStatusOf raw) != "QHSLAB"

/-- Lines 1036-1049: map the row's billing value to the classification chosen
on the form. -/
def targetBillingStatus (raw : String) : String :=
  if jsToUpper (excelBillingStatusOf raw) == "QHSLAB" then "Billed"
  else if excelBillingStatusOf raw != "" then "Appt. Cancelled"
  else "Appt. Cancelled"

/-- Which steps of the patient state machine run for a given input. -/
structure PatientClaimSteps where
  fillsServiceDate : Bool
  fillsDiagnosis : Bool
  billingClassification : String
deriving DecidableEq, Repr

/-- The branch structure of `processPatientClaim`: the DOS and ICD fill steps
run only on the non-cancelled branch and only when the row supplies a value
(lines 470-476 and 540-541); the classification follows `targetBillingStatus`. -/
def processPatientClaimModel (p : PatientInput) : PatientClaimSteps :=
  PatientClaimSteps.mk
    (!(isCancelledAppointment p.billingStatusRaw) && p.dosValue != "")
    (!(isCancelledAppointment p.billingStatusRaw) && p.icdValue != "")
    (targetBillingStatus p.billingStatusRaw)

/-- The inputs of one spreadsheet row that drive `processRow`'s filter phase. -/
structure InputRow where
  rowNumber : Nat
  mrn : String
  customId : String
  appointmentDateValue : Option String
deriving DecidableEq, Repr

/-- Result of attempting one filter interaction. -/
inductive FilterOutcome where
  | ok
  | err (msg : String)
deriving DecidableEq, Repr

/-- The environment a row runs against: how each filter attempt would end and
which patient statuses the patient loop would record. -/
structure RowEnv where
  customIdOutcome : FilterOutcome
  mrnOutcome : FilterOutcome
  apptOutcome : FilterOutcome
  patientStatuses : List String
deriving DecidableEq, Repr

/-- Which filters ended up applied, and whether the row reached the patient
counting/processing phase. -/
structure RowTrace where
  customIdApplied : Bool
  mrnApplied : Bool
  apptApplied : Bool
  reachedPatientPhase : Bool
deriving DecidableEq, Repr

/-- The filter phase of `processRow` (lines 1406-1662): optional Custom ID
filter failures are caught and processing continues; an MRN filter failure is
rethrown as `Failed to apply MRN filter: ...` and caught by the row-level
handler, which records one Failed result; with MRN applied the optional
Appointment Date filter runs, then the patient loop (zero matches record one
Skipped result). -/
def processRowModel (row : InputRow) (env : RowEnv) : List PatientResult × RowTrace :=
  let customIdApplied :=
    if jsTrim row.customId != "" then
      match env.customIdOutcome with
      | FilterOutcome.ok => true
      | FilterOutcome.err _ => false
    else false
  match env.mrnOutcome with
  | FilterOutcome.err msg =>
      ([PatientResult.mk row.rowNumber "Failed" ("Failed to apply MRN filter: " ++ msg)],
       RowTrace.mk customIdApplied false false false)
  | FilterOutcome.ok =>
      let apptApplied :=
        match row.appointmentDateValue with
        | some _ =>
            match env.apptOutcome with
            | FilterOutcome.ok => true
            | FilterOutcome.err _ => false
        | none => false
      if env.patientStatuses.length = 0 then
        ([PatientResult.mk row.rowNumber "Skipped" "No patients found with this MRN"],
         RowTrace.mk customIdApplied true apptApplied true)
      else
        (env.patientStatuses.map (fun st => PatientResult.mk row.rowNumber st ""),
         RowTrace.mk customIdApplied true apptApplied true)

/-- The four module-level one-time gates (lines 22-25 of the script). -/
structure SessionGates where
  claimsClickedOnce : Bool
  accountsPageNavigated : Bool
  entitySourceFilterApplied : Bool
  assessmentResourceFilterApplied : Bool
deriving DecidableEq, Repr

/-- All gates start unset. -/
def initialGates : SessionGates := SessionGates.mk false false false false

/-- Whether each gated action would succeed if attempted during a given row. -/
structure GateEnv where
  navOk : Bool
  claimsOk : Bool
  entityOk : Bool
  assessOk : Bool
deriving DecidableEq, Repr

/-- How many times each gated action ran. -/
structure GateCounts where
  navRuns : Nat
  claimsRuns : Nat
  entityRuns : Nat
  assessRuns : Nat
deriving DecidableEq, Repr

/-- Pointwise sum of run counts. -/
def addCounts (a b : GateCounts) : GateCounts :=
  GateCounts.mk (a.navRuns + b.navRuns) (a.claimsRuns + b.claimsRuns)
    (a.entityRuns + b.entityRuns) (a.assessRuns + b.assessRuns)

/-- The gate handling of one `processRow` call (lines 1252-1400): navigation
runs when unset and aborts the row on failure (nothing later is attempted);
the Claims click, Entity Source filter and Assessment/Resource filter each run
when their gate is unset, set it only on success, and their failures are
caught so the row continues. -/
def stepGates (s : SessionGates) (e : GateEnv) : SessionGates × GateCounts :=
  if !s.accountsPageNavigated && !e.navOk then
    (s, GateCounts.mk 1 0 0 0)
  else
    let navRuns := if s.accountsPageNavigated then 0 else 1
    let claimsRuns := if s.claimsClickedOnce then 0 else 1
    let claims' := s.claimsClickedOnce || e.claimsOk
    let entityRuns := if s.entitySourceFilterApplied then 0 else 1
    let entity' := s.entitySourceFilterApplied || e.entityOk
    let assessRuns := if s.assessmentResourceFilterApplied then 0 else 1
    let assess' := s.assessmentResourceFilterApplied || e.assessOk
    (SessionGates.mk claims' true entity' assess',
     GateCounts.mk navRuns claimsRuns entityRuns assessRuns)

/-- A run: fold the per-row gate handling over the rows, summing the counts. -/
def runGates : SessionGates → List GateEnv → SessionGates × GateCounts
  | s, [] => (s, GateCounts.mk 0 0 0 0)
  | s, e :: rest =>
      let p := stepGates s e
      let q := runGates p.1 rest
      (q.1, addCounts p.2 q.2)

/-- The successive gate states of a run (initial state included). -/
def statesFrom : SessionGates → List GateEnv → List SessionGates
  | s, [] => [s]
  | s, e :: rest => s :: statesFrom (stepGates s e).1 rest

/-- Number of false-to-true flips along a boolean trace. -/
def flips : List Bool → Nat
  | b :: c :: rest => (if !b && c then 1 else 0) + flips (c :: rest)
  | _ => 0

theorem contains_iff_mem (l : List String) (a : String) : l.contains a = true ↔ a ∈ l := by
  simp [List.contains, List.elem_iff]

theorem mem_dedupAux (x : String) : ∀ (l seen : List String),
    x ∈ dedupAux seen l ↔ (x ∈ l ∧ x ∉ seen) := by
  intro l
  induction l with
  | nil => intro seen; simp [dedupAux]
  | cons y ys ih =>
      intro seen
      by_cases hy : y ∈ seen
      · have hc : seen.contains y = true := (contains_iff_mem seen y).mpr hy
        simp only [dedupAux, hc, if_true, ih, List.mem_cons]
        constructor
        · rintro ⟨h1, h2⟩; exact ⟨Or.inr h1, h2⟩
        · rintro ⟨h1, h2⟩
          rcases h1 with rfl | h1
          · exact absurd hy h2
          · exact ⟨h1, h2⟩
      · have hc : seen.contains y = false := by
          rcases h : seen.contains y with _ | _
          · rfl
          · exact absurd ((contains_iff_mem seen y).mp h) hy
        simp only [dedupAux, hc, Bool.false_eq_true, if_false, List.mem_cons, ih, not_or]
        constructor
        · rintro (rfl | ⟨h1, h2, h3⟩)
          · exact ⟨Or.inl rfl, hy⟩
          · exact ⟨Or.inr h1, h3⟩
        · rintro ⟨h1, h2⟩
          rcases h1 with rfl | h1
          · exact Or.inl rfl
          · by_cases hxy : x = y
            · exact Or.inl hxy
            · exact Or.inr ⟨h1, hxy, h2⟩

theorem mem_uniqueKeepFirst (a : String) (l : List String) :
    a ∈ uniqueKeepFirst l ↔ a ∈ l := by
  simp [uniqueKeepFirst, mem_dedupAux]

theorem dedupAux_eq_nil : ∀ (l seen : List String),
    dedupAux seen l = [] ↔ ∀ x ∈ l, x ∈ seen := by
  intro l
  induction l with
  | nil => intro seen; simp [dedupAux]
  | cons y ys ih =>
      intro seen
      by_cases hy : y ∈ seen
      · have hc : seen.contains y = true := (contains_iff_mem seen y).mpr hy
        simp only [dedupAux, hc, if_true, ih, List.mem_cons]
        constructor
        · intro h x hx
          rcases hx with rfl | hx
          · exact hy
          · exact h x hx
        · intro h x hx
          exact h x (Or.inr hx)
      · have hc : seen.contains y = false := by
          rcases h : seen.contains y with _ | _
          · rfl
          · exact absurd ((contains_iff_mem seen y).mp h) hy
        simp only [dedupAux, hc, Bool.false_eq_true, if_false, reduceCtorEq, false_iff, not_forall]
        exact ⟨y, List.mem_cons_self y ys, hy⟩

theorem uniqueKeepFirst_eq_nil (l : List String) : uniqueKeepFirst l = [] ↔ l = [] := by
  cases l with
  | nil => simp [uniqueKeepFirst, dedupAux]
  | cons y ys => simp [uniqueKeepFirst, dedupAux]

theorem uniqueKeepFirst_singleton (l : List String) (a : String) :
    uniqueKeepFirst l = [a] ↔ (l ≠ [] ∧ ∀ x ∈ l, x = a) := by
  cases l with
  | nil => simp [uniqueKeepFirst, dedupAux]
  | cons y ys =>
      have h0 : uniqueKeepFirst (y :: ys) = y :: dedupAux [y] ys := by
        simp [uniqueKeepFirst, dedupAux]
      rw [h0]
      simp only [List.cons.injEq, ne_eq, reduceCtorEq, not_false_eq_true, true_and, List.mem_cons]
      constructor
      · rintro ⟨rfl, h2⟩
        have hall := (dedupAux_eq_nil ys [y]).mp h2
        intro x hx
        rcases hx with rfl | hx
        · rfl
        · have := hall x hx
          simpa using this
      · intro h
        have hy : y = a := h y (Or.inl rfl)
        refine ⟨hy, ?_⟩
        refine (dedupAux_eq_nil ys [y]).mpr ?_
        intro x hx
        have hx' : x = a := h x (Or.inr hx)
        simp [hx', hy]

theorem dedupAux_head_notmem : ∀ (l seen : List String) (a : String) (tl : List String),
    dedupAux seen l = a :: tl → ∀ x ∈ tl, x ≠ a := by
  intro l
  induction l with
  | nil =>
      intro seen a tl h
      simp [dedupAux] at h
  | cons y ys ih =>
      intro seen a tl h
      by_cases hy : y ∈ seen
      · have hc : seen.contains y = true := (contains_iff_mem seen y).mpr hy
        simp only [dedupAux, hc, if_true] at h
        exact ih seen a tl h
      · have hc : seen.contains y = false := by
          rcases hcc : seen.contains y with _ | _
          · rfl
          · exact absurd ((contains_iff_mem seen y).mp hcc) hy
        simp only [dedupAux, hc, Bool.false_eq_true, if_false, List.cons.injEq] at h
        obtain ⟨h1, h2⟩ := h
        intro x hx
        have hxmem : x ∈ dedupAux (y :: seen) ys := by rw [h2]; exact hx
        have hnot := ((mem_dedupAux x ys (y :: seen)).mp hxmem).2
        intro hxa
        exact hnot (by simp [hxa, ← h1])

theorem uniqueKeepFirst_head_notmem (l : List String) (a : String) (tl : List String)
    (h : uniqueKeepFirst l = a :: tl) : ∀ x ∈ tl, x ≠ a :=
  dedupAux_head_notmem l [] a tl h

theorem filter_length_ne_of_exists_not (l : List String) (p : String → Bool)
    (x : String) (hx : x ∈ l) (hpx : p x = false) :
    (l.filter p).length ≠ l.length := by
  intro heq
  have hsub : (l.filter p).Sublist l := List.filter_sublist l
  have heqf : l.filter p = l := hsub.eq_of_length heq
  have hmem : x ∈ l.filter p := by rw [heqf]; exact hx
  have hp := (List.mem_filter.mp hmem).2
  rw [hpx] at hp
  exact Bool.false_ne_true hp

theorem agg_single (results : List PatientResult) (a : String) (hne : results ≠ [])
    (hall : ∀ x ∈ results.map statusOf, x = a) :
    aggregateStatus results = a := by
  have hlen : ¬ results.length = 0 := by simpa [List.length_eq_zero] using hne
  have hmapne : results.map statusOf ≠ [] := by simpa using hne
  have hu : uniqueKeepFirst (results.map statusOf) = [a] :=
    (uniqueKeepFirst_singleton _ a).mpr ⟨hmapne, hall⟩
  have hcont : ∀ s : String, ([a].contains s = true) ↔ (s = a) := by
    intro s
    rw [contains_iff_mem]
    simp
  unfold aggregateStatus
  rw [if_neg hlen, hu]
  by_cases hB : "Billed" = a
  · rw [if_pos ((hcont _).mpr hB), if_pos (show ([a] : List String).length = 1 from rfl)]
    exact hB
  · rw [if_neg (fun h => hB ((hcont _).mp h))]
    by_cases hA : "Appt. Cancelled" = a
    · rw [if_pos ((hcont _).mpr hA), if_pos (show ([a] : List String).length = 1 from rfl)]
      exact hA
    · rw [if_neg (fun h => hA ((hcont _).mp h))]
      by_cases hS : "Success" = a
      · rw [if_pos ((hcont _).mpr hS), if_pos (show ([a] : List String).length = 1 from rfl)]
        exact hS
      · rw [if_neg (fun h => hS ((hcont _).mp h))]
        by_cases hF : "Failed" = a
        · rw [if_pos ((hcont _).mpr hF)]
          have hfilter : (results.map statusOf).filter (fun s => s == "Failed") =
              results.map statusOf := by
            rw [List.filter_eq_self]
            intro s hs
            have hsa := hall s hs
            simp [hsa, ← hF]
          rw [hfilter, List.length_map,
            if_pos (show results.length = results.length from rfl)]
          exact hF
        · rw [if_neg (fun h => hF ((hcont _).mp h))]
          rw [if_neg (by simp : ¬ ([a].length > 1))]
          rfl

theorem aggClaim_single (statuses : List String) (a : String) (hne : statuses ≠ [])
    (hall : ∀ x ∈ statuses, x = a) :
    aggregateStatusClaim statuses = a := by
  have hu : uniqueKeepFirst statuses = [a] :=
    (uniqueKeepFirst_singleton _ a).mpr ⟨hne, hall⟩
  unfold aggregateStatusClaim
  rw [hu, if_pos (show ([a] : List String).length = 1 from rfl)]
  rfl

theorem agg_eq_claim (results : List PatientResult) (hne : results ≠ []) :
    aggregateStatus results = aggregateStatusClaim (results.map statusOf) := by
  have hlen : ¬ results.length = 0 := by simpa [List.length_eq_zero] using hne
  have hmapne : results.map statusOf ≠ [] := by simpa using hne
  have hN : (results.map statusOf).length = results.length := List.length_map _ _
  rcases hu : uniqueKeepFirst (results.map statusOf) with _ | ⟨a, tl⟩
  · exact absurd ((uniqueKeepFirst_eq_nil _).mp hu) hmapne
  · rcases tl with _ | ⟨b, tl2⟩
    · have hall := ((uniqueKeepFirst_singleton _ a).mp hu).2
      rw [agg_single results a hne hall,
        aggClaim_single (results.map statusOf) a hmapne hall]
    · have hmema : a ∈ results.map statusOf :=
        (mem_uniqueKeepFirst a _).mp (by rw [hu]; simp)
      have hmemb : b ∈ results.map statusOf :=
        (mem_uniqueKeepFirst b _).mp (by rw [hu]; simp)
      have hba : b ≠ a := uniqueKeepFirst_head_notmem _ a _ hu b (by simp)
      have hfne : ((results.map statusOf).filter (fun s => s == "Failed")).length ≠
          results.length := by
        rw [← hN]
        by_cases haf : a = "Failed"
        · refine filter_length_ne_of_exists_not _ _ b hmemb ?_
          rw [beq_eq_false_iff_ne]
          rw [haf] at hba
          exact hba
        · refine filter_length_ne_of_exists_not _ _ a hmema ?_
          rw [beq_eq_false_iff_ne]
          exact haf
      have hlen1 : ¬ ((a :: b :: tl2).length = 1) := by simp
      have hgt1 : (a :: b :: tl2).length > 1 := by simp
      unfold aggregateStatus aggregateStatusClaim
      rw [if_neg hlen, hN, hu]
      simp only [if_neg hlen1]
      by_cases hB : ((a :: b :: tl2).contains "Billed") = true
      · simp only [if_pos hB]
      · simp only [if_neg hB]
        by_cases hA : ((a :: b :: tl2).contains "Appt. Cancelled") = true
        · simp only [if_pos hA]
        · simp only [if_neg hA]
          by_cases hS : ((a :: b :: tl2).contains "Success") = true
          · simp only [if_pos hS]
          · simp only [if_neg hS]
            by_cases hF : ((a :: b :: tl2).contains "Failed") = true
            · simp only [if_pos hF, if_neg hfne]
            · simp only [if_neg hF, if_pos hgt1]

/-- Claim C1: for every non-empty list of PatientResults (with statuses drawn
from the closed status enumeration, hence non-empty), the aggregator returns
exactly what the specification's aggregation rule describes — the plain status
name for a single distinct status, the priority winner with the documented
composite formats otherwise, the comma-join for non-priority mixes — and it
satisfies the spec's five worked examples. -/
theorem claim_C1_aggregateStatus_matches_spec :
    (∀ (results : List PatientResult), results ≠ [] →
        (∀ r ∈ results, r.status ≠ "") →
        aggregateStatus results = aggregateStatusClaim (results.map PatientResult.status)) ∧
    aggregateStatus [PatientResult.mk 1 "Billed" "", PatientResult.mk 1 "Billed" ""] = "Billed" ∧
    aggregateStatus [PatientResult.mk 1 "Billed" "", PatientResult.mk 1 "Failed" ""] =
      "Billed (2 patients)" ∧
    aggregateStatus [PatientResult.mk 1 "Failed" "", PatientResult.mk 1 "Failed" ""] = "Failed" ∧
    aggregateStatus [PatientResult.mk 1 "Failed" "", PatientResult.mk 1 "Success" ""] =
      "Success (2 patients)" ∧
    aggregateStatus [PatientResult.mk 1 "Failed" ""] = "Failed" := by
  refine ⟨?_, by decide, by decide, by decide, by decide, by decide⟩
  intro results hne hval
  have hmap : results.map statusOf = results.map PatientResult.status :=
    List.map_congr_left (fun r hr => by simp [statusOf, hval r hr])
  rw [agg_eq_claim results hne, hmap]

/-- Witness for C1 at a concrete mixed row. -/
theorem claim_C1_witness :
    ([PatientResult.mk 1 "Billed" "", PatientResult.mk 1 "Failed" ""] : List PatientResult) ≠ [] ∧
    aggregateStatus [PatientResult.mk 1 "Billed" "", PatientResult.mk 1 "Failed" ""] =
      aggregateStatusClaim ["Billed", "Failed"] :=
  ⟨by decide, claim_C1_aggregateStatus_matches_spec.1
      [PatientResult.mk 1 "Billed" "", PatientResult.mk 1 "Failed" ""]
      (by decide) (by decide)⟩

theorem uniqueKeepFirst_length_one_of_perm (s1 s2 : List String) (hp : s1.Perm s2)
    (h : (uniqueKeepFirst s1).length = 1) : (uniqueKeepFirst s2).length = 1 := by
  rw [List.length_eq_one] at h ⊢
  obtain ⟨a, ha⟩ := h
  rw [uniqueKeepFirst_singleton] at ha
  refine ⟨a, (uniqueKeepFirst_singleton _ _).mpr ⟨?_, ?_⟩⟩
  · intro h2
    apply ha.1
    have hl := hp.length_eq
    rw [h2] at hl
    simpa [List.length_eq_zero] using hl
  · intro x hx
    exact ha.2 x (hp.mem_iff.mpr hx)

/-- Claim C5 counterexample: two permuted result lists for the same row whose
aggregated display strings differ (the comma-join branch lists the distinct
statuses in first-occurrence order). -/
theorem claim_C5_counterexample :
    ([PatientResult.mk 1 "Skipped" "", PatientResult.mk 1 "Unknown" ""] : List PatientResult).Perm
      [PatientResult.mk 1 "Unknown" "", PatientResult.mk 1 "Skipped" ""] ∧
    aggregateStatus [PatientResult.mk 1 "Skipped" "", PatientResult.mk 1 "Unknown" ""] ≠
      aggregateStatus [PatientResult.mk 1 "Unknown" "", PatientResult.mk 1 "Skipped" ""] := by
  constructor
  · decide
  · decide

/-- Claim C5 (amended): aggregation is a pure function of the multiset of
statuses whenever one of the four priority statuses is present, or all
normalized statuses coincide; permuting the results then never changes the
display string. -/
theorem claim_C5_perm_invariant (l1 l2 : List PatientResult) (hperm : l1.Perm l2)
    (hcase : (∃ r ∈ l1, statusOf r ∈
        (["Billed", "Appt. Cancelled", "Success", "Failed"] : List String)) ∨
      (∀ r ∈ l1, ∀ r' ∈ l1, statusOf r = statusOf r')) :
    aggregateStatus l1 = aggregateStatus l2 := by
  have hp : (l1.map statusOf).Perm (l2.map statusOf) := hperm.map statusOf
  have hlen12 : l1.length = l2.length := hperm.length_eq
  rcases hcase with ⟨r, hr, hrmem⟩ | hallcase
  · -- a priority status is present
    have hcont : ∀ s : String, ((uniqueKeepFirst (l1.map statusOf)).contains s = true) ↔
        ((uniqueKeepFirst (l2.map statusOf)).contains s = true) := by
      intro s
      rw [contains_iff_mem, contains_iff_mem, mem_uniqueKeepFirst, mem_uniqueKeepFirst]
      exact hp.mem_iff
    have hone : ((uniqueKeepFirst (l1.map statusOf)).length = 1) ↔
        ((uniqueKeepFirst (l2.map statusOf)).length = 1) :=
      ⟨uniqueKeepFirst_length_one_of_perm _ _ hp, uniqueKeepFirst_length_one_of_perm _ _ hp.symm⟩
    have hfiltlen : ((l1.map statusOf).filter (fun s => s == "Failed")).length =
        ((l2.map statusOf).filter (fun s => s == "Failed")).length := by
      rw [← List.countP_eq_length_filter, ← List.countP_eq_length_filter]
      exact hp.countP_eq _
    have hmem1 : ∀ s : String, statusOf r = s →
        (uniqueKeepFirst (l1.map statusOf)).contains s = true := by
      intro s hs
      rw [contains_iff_mem, mem_uniqueKeepFirst]
      exact List.mem_map.mpr ⟨r, hr, hs⟩
    have h0 : ¬ l1.length = 0 := by
      simp only [List.length_eq_zero]
      intro hnil
      rw [hnil] at hr
      exact List.not_mem_nil r hr
    have h02 : ¬ l2.length = 0 := by
      rw [← hlen12]
      exact h0
    unfold aggregateStatus
    rw [if_neg h0, if_neg h02]
    by_cases hB1 : (uniqueKeepFirst (l1.map statusOf)).contains "Billed" = true
    · simp only [if_pos hB1, if_pos ((hcont _).mp hB1)]
      by_cases h1 : (uniqueKeepFirst (l1.map statusOf)).length = 1
      · simp only [if_pos h1, if_pos (hone.mp h1)]
      · simp only [if_neg h1, if_neg (fun hh => h1 (hone.mpr hh))]
        rw [hlen12]
    · simp only [if_neg hB1, if_neg (fun hh => hB1 ((hcont _).mpr hh))]
      by_cases hA1 : (uniqueKeepFirst (l1.map statusOf)).contains "Appt. Cancelled" = true
      · simp only [if_pos hA1, if_pos ((hcont _).mp hA1)]
        by_cases h1 : (uniqueKeepFirst (l1.map statusOf)).length = 1
        · simp only [if_pos h1, if_pos (hone.mp h1)]
        · simp only [if_neg h1, if_neg (fun hh => h1 (hone.mpr hh))]
          rw [hlen12]
      · simp only [if_neg hA1, if_neg (fun hh => hA1 ((hcont _).mpr hh))]
        by_cases hS1 : (uniqueKeepFirst (l1.map statusOf)).contains "Success" = true
        · simp only [if_pos hS1, if_pos ((hcont _).mp hS1)]
          by_cases h1 : (uniqueKeepFirst (l1.map statusOf)).length = 1
          · simp only [if_pos h1, if_pos (hone.mp h1)]
          · simp only [if_neg h1, if_neg (fun hh => h1 (hone.mpr hh))]
            rw [hlen12]
        · simp only [if_neg hS1, if_neg (fun hh => hS1 ((hcont _).mpr hh))]
          by_cases hF1 : (uniqueKeepFirst (l1.map statusOf)).contains "Failed" = true
          · simp only [if_pos hF1, if_pos ((hcont _).mp hF1)]
            by_cases hq : ((l1.map statusOf).filter (fun s => s == "Failed")).length = l1.length
            · have hq2 : ((l2.map statusOf).filter (fun s => s == "Failed")).length =
                  l2.length := by
                rw [← hfiltlen, ← hlen12]
                exact hq
              simp only [if_pos hq, if_pos hq2]
            · have hq2 : ¬ ((l2.map statusOf).filter (fun s => s == "Failed")).length =
                  l2.length := by
                rw [← hfiltlen, ← hlen12]
                exact hq
              simp only [if_neg hq, if_neg hq2]
              rw [hfiltlen, hlen12]
          · exfalso
            simp only [List.mem_cons, List.not_mem_nil, or_false] at hrmem
            rcases hrmem with hs | hs | hs | hs
            · exact hB1 (hmem1 _ hs)
            · exact hA1 (hmem1 _ hs)
            · exact hS1 (hmem1 _ hs)
            · exact hF1 (hmem1 _ hs)
  · -- all statuses coincide
    cases l1 with
    | nil =>
        have : l2 = [] := by
          have hl := hlen12
          simp only [List.length_nil] at hl
          exact List.length_eq_zero.mp hl.symm
        rw [this]
    | cons r0 rest =>
        have hall1 : ∀ x ∈ (r0 :: rest).map statusOf, x = statusOf r0 := by
          intro x hx
          obtain ⟨r', hr', hrx⟩ := List.mem_map.mp hx
          rw [← hrx]
          exact hallcase r' hr' r0 (List.mem_cons_self r0 rest)
        have hall2 : ∀ x ∈ l2.map statusOf, x = statusOf r0 := by
          intro x hx
          exact hall1 x (hp.mem_iff.mpr hx)
        have hne2 : l2 ≠ [] := by
          intro h2
          rw [h2] at hlen12
          simp at hlen12
        rw [agg_single _ (statusOf r0) (by simp) hall1,
          agg_single _ (statusOf r0) hne2 hall2]

theorem findStatusIdx_none (l : List String) :
    findStatusIdx l = none ↔ ∀ x ∈ l, isStatusHeader x = false := by
  induction l with
  | nil => simp [findStatusIdx]
  | cons h t ih =>
      by_cases hh : isStatusHeader h
      · simp [findStatusIdx, hh]
      · simp only [findStatusIdx, hh, Bool.false_eq_true, if_false, Option.map_eq_none', ih,
          List.mem_cons]
        constructor
        · intro ha x hx
          rcases hx with rfl | hx
          · exact Bool.eq_false_iff.mpr hh
          · exact ha x hx
        · intro ha x hx
          exact ha x (Or.inr hx)

theorem findStatusIdx_some : ∀ (l : List String) (j : Nat), findStatusIdx l = some j →
    ∃ pre x post, l = pre ++ x :: post ∧ pre.length = j ∧ isStatusHeader x = true ∧
      ∀ y ∈ pre, isStatusHeader y = false := by
  intro l
  induction l with
  | nil => intro j h; simp [findStatusIdx] at h
  | cons hd t ih =>
      intro j h
      by_cases hh : isStatusHeader hd
      · simp only [findStatusIdx, hh, if_true, Option.some.injEq] at h
        exact ⟨[], hd, t, by simp, by simp [← h], hh, by simp⟩
      · simp only [findStatusIdx, hh, Bool.false_eq_true, if_false] at h
        rcases ho : findStatusIdx t with _ | j'
        · rw [ho] at h; simp at h
        · rw [ho] at h
          simp only [Option.map_some', Option.some.injEq] at h
          obtain ⟨pre, x, post, hl, hlen, hx, hpre⟩ := ih j' ho
          refine ⟨hd :: pre, x, post, by simp [hl], by simp [hlen, ← h], hx, ?_⟩
          intro y hy
          rcases List.mem_cons.mp hy with rfl | hy
          · exact Bool.eq_false_iff.mpr hh
          · exact hpre y hy

theorem countP_eq_zero_of_all_false (l : List String) (h : ∀ x ∈ l, isStatusHeader x = false) :
    l.countP isStatusHeader = 0 :=
  List.countP_eq_zero.mpr (fun a ha => by simp [h a ha])

theorem findStatusIdx_append_status (H : List String)
    (hH : ∀ x ∈ H, isStatusHeader x = false) :
    findStatusIdx (H ++ ["Status"]) = some H.length := by
  induction H with
  | nil => decide
  | cons h t ih =>
      have hh : isStatusHeader h = false := hH h (List.mem_cons_self h t)
      have ih2 := ih (fun x hx => hH x (List.mem_cons_of_mem h hx))
      simp only [List.cons_append, findStatusIdx, hh, Bool.false_eq_true, if_false,
        List.append_eq, ih2, Option.map_some', List.length_cons]

theorem eraseIdx_at (pre post : List String) (x : String) :
    (pre ++ x :: post).eraseIdx pre.length = pre ++ post := by
  induction pre with
  | nil => simp [List.eraseIdx]
  | cons p ps ih => simp [List.eraseIdx, ih]

/-- Core description of `fixStatusColumn` on a sheet with at most one Status
column: it returns a sheet whose header row ends with its unique Status column,
at the returned index. -/
theorem fixStatus_out (rows : List (List String)) (hne : rows ≠ [])
    (hdup : (rows.headD []).countP isStatusHeader ≤ 1) :
    ∃ h' t' j, fixStatusColumn rows = (h' :: t', j) ∧ j + 1 = h'.length ∧
      findStatusIdx h' = some j ∧ h'.countP isStatusHeader = 1 ∧
      isStatusHeader (h'.getLastD "") = true := by
  rcases rows with _ | ⟨hd, t⟩
  · exact absurd rfl hne
  have hhd : (hd :: t).headD [] = hd := rfl
  rcases hfind : findStatusIdx hd with _ | j0
  · -- no Status column: appended at the end
    have hall : ∀ x ∈ hd, isStatusHeader x = false := (findStatusIdx_none hd).mp hfind
    refine ⟨hd ++ ["Status"], t.map (fun r => padTo (hd.length + 1) r), hd.length, ?_, ?_, ?_, ?_, ?_⟩
    · simp only [fixStatusColumn, List.headD_cons, hfind]
      rfl
    · simp
    · exact findStatusIdx_append_status hd hall
    · rw [List.countP_append, countP_eq_zero_of_all_false hd hall]
      decide
    · rw [List.getLastD_concat]
      decide
  · obtain ⟨pre, x, post, hl, hlen, hx, hpre⟩ := findStatusIdx_some hd j0 hfind
    have hlenhd : hd.length = pre.length + (post.length + 1) := by
      rw [hl]; simp [Nat.add_comm, Nat.add_left_comm]
    by_cases hmid : j0 + 1 < hd.length
    · -- Status column exists but is not last: removed, then re-appended
      have herase : hd.eraseIdx j0 = pre ++ post := by
        rw [hl, ← hlen]; exact eraseIdx_at pre post x
      have hallpp : ∀ y ∈ pre ++ post, isStatusHeader y = false := by
        intro y hy
        rcases List.mem_append.mp hy with hy | hy
        · exact hpre y hy
        · -- countP hd ≤ 1 forces post to hold no further Status column
          by_contra hyy
          have hyt : isStatusHeader y = true := by
            rcases hb : isStatusHeader y with _ | _
            · exact absurd hb hyy
            · rfl
          have : 2 ≤ hd.countP isStatusHeader := by
            rw [hl, List.countP_append, List.countP_cons]
            have h1 : 1 ≤ List.countP isStatusHeader post :=
              Nat.one_le_iff_ne_zero.mpr (fun h0 => by
                have := List.countP_eq_zero.mp h0 y hy
                exact this hyt)
            simp only [hx, if_true]
            omega
          rw [hhd] at hdup
          omega
      refine ⟨(pre ++ post) ++ ["Status"],
        (t.map (fun r => r.eraseIdx j0)).map (fun r => padTo ((pre ++ post).length + 1) r),
        (pre ++ post).length, ?_, ?_, ?_, ?_, ?_⟩
      · simp only [fixStatusColumn, List.headD_cons, hfind, if_pos hmid]
        simp only [List.map_cons, herase]
        rfl
      · simp only [List.length_append, List.length_cons, List.length_nil]
      · exact findStatusIdx_append_status _ hallpp
      · rw [List.countP_append, countP_eq_zero_of_all_false _ hallpp]
        decide
      · rw [List.getLastD_concat]
        decide
    · -- Status column already last: kept in place
      have hj0 : j0 + 1 = hd.length := by
        have : j0 < hd.length := by
          rw [hlenhd, ← hlen]
          omega
        omega
      have hpost : post = [] := by
        have : post.length = 0 := by
          rw [hlenhd, ← hlen] at hj0
          omega
        exact List.length_eq_zero.mp this
      refine ⟨hd, t, j0, ?_, hj0, hfind, ?_, ?_⟩
      · simp only [fixStatusColumn, List.headD_cons, hfind, if_neg hmid]
      · rw [hl, hpost, List.countP_append, List.countP_cons,
          countP_eq_zero_of_all_false pre hpre]
        simp [hx, List.countP_nil]
      · rw [hl, hpost, List.getLastD_concat]
        exact hx

/-- Claim C2 (amended): for every non-empty input sheet whose header row holds
at most one case-insensitive Status column, and every result set, the header
row of the updated sheet contains exactly one case-insensitive Status column,
and it is the last column. -/
theorem claim_C2_status_last (rows : List (List String)) (results : List PatientResult)
    (hne : rows ≠ []) (hdup : (rows.headD []).countP isStatusHeader ≤ 1) :
    ∃ hd tl, updateExcelRows rows results = hd :: tl ∧
      hd.countP isStatusHeader = 1 ∧ isStatusHeader (hd.getLastD "") = true := by
  obtain ⟨h', t', j, hfix, hjlen, hfind, hcount, hlast⟩ := fixStatus_out rows hne hdup
  refine ⟨h', writeRowsFrom j results 2 t', ?_, hcount, hlast⟩
  unfold updateExcelRows
  rw [hfix]

/-- Claim C2 counterexample: with two pre-existing Status columns, the writer
removes only the first and re-appends a new one, leaving two Status columns in
the header row. -/
theorem claim_C2_counterexample :
    (updateExcelRows [["Status", "Status", "X"]] []).headD [] = ["Status", "X", "Status"] ∧
    (["Status", "X", "Status"] : List String).countP isStatusHeader = 2 := by
  constructor
  · decide
  · decide

/-- Witness for C2 at a concrete sheet with a Status column already last. -/
theorem claim_C2_witness :
    (([["A", "Status"], ["x", ""]] : List (List String)) ≠ [] ∧
      (([["A", "Status"], ["x", ""]] : List (List String)).headD []).countP isStatusHeader ≤ 1) ∧
    (∃ hd tl, updateExcelRows [["A", "Status"], ["x", ""]] [] = hd :: tl ∧
      hd.countP isStatusHeader = 1 ∧ isStatusHeader (hd.getLastD "") = true) :=
  ⟨⟨by decide, by decide⟩,
    claim_C2_status_last [["A", "Status"], ["x", ""]] [] (by decide) (by decide)⟩

theorem padTo_length {α : Type} (n : Nat) (row : List α) (d : α) :
    (row ++ List.replicate (n - row.length) d).length = row.length + (n - row.length) := by
  simp

theorem padTo_length_ge (n : Nat) (row : List String) : n ≤ (padTo n row).length := by
  simp only [padTo, List.length_append, List.length_replicate]
  omega

theorem padTo_eq_self (n : Nat) (row : List String) (h : n ≤ row.length) :
    padTo n row = row := by
  simp [padTo, Nat.sub_eq_zero_of_le h]

theorem replicate_getD (m k : Nat) : (List.replicate m ("" : String)).getD k "" = "" := by
  induction m generalizing k with
  | zero => simp
  | succ m ih =>
      cases k with
      | zero => simp [List.replicate_succ]
      | succ k => simp [List.replicate_succ, ih]

theorem append_replicate_getD (l : List String) (m k : Nat) :
    (l ++ List.replicate m "").getD k "" = l.getD k "" := by
  induction l generalizing k with
  | nil => simp [replicate_getD]
  | cons a t ih =>
      cases k with
      | zero => simp
      | succ k => simpa using ih k

theorem padTo_getD (n k : Nat) (row : List String) :
    (padTo n row).getD k "" = row.getD k "" :=
  append_replicate_getD row (n - row.length) k

theorem getD_set_self {α : Type} (l : List α) (j : Nat) (v d : α) (h : j < l.length) :
    (l.set j v).getD j d = v := by
  induction l generalizing j with
  | nil => simp at h
  | cons a t ih =>
      cases j with
      | zero => simp
      | succ k =>
          simp only [List.set_cons_succ, List.getD_cons_succ]
          exact ih k (by simpa using h)

theorem getD_set_ne {α : Type} (l : List α) (j k : Nat) (v d : α) (h : k ≠ j) :
    (l.set j v).getD k d = l.getD k d := by
  induction l generalizing j k with
  | nil => simp
  | cons a t ih =>
      cases j with
      | zero =>
          cases k with
          | zero => exact absurd rfl h
          | succ k => simp
      | succ j' =>
          cases k with
          | zero => simp
          | succ k' =>
              simp only [List.set_cons_succ, List.getD_cons_succ]
              exact ih j' k' (fun hh => h (by rw [hh]))

theorem writeStatusCell_length_ge (j : Nat) (results : List PatientResult) (n : Nat)
    (row : List String) : j + 1 ≤ (writeStatusCell j results n row).length := by
  have hp := padTo_length_ge (j + 1) row
  simp only [writeStatusCell]
  split
  · simpa using hp
  · split
    · simpa using hp
    · exact hp

theorem writeStatusCell_idem (j : Nat) (results : List PatientResult) (n : Nat)
    (row : List String) :
    writeStatusCell j results n (writeStatusCell j results n row) =
      writeStatusCell j results n row := by
  have hlen := writeStatusCell_length_ge j results n row
  have hpad : padTo (j + 1) (writeStatusCell j results n row) = writeStatusCell j results n row :=
    padTo_eq_self _ _ hlen
  have hjlt : j < (padTo (j + 1) row).length := padTo_length_ge (j + 1) row
  by_cases hres : (resultsFor results n).length > 0
  · have hout : writeStatusCell j results n row =
        (padTo (j + 1) row).set j (aggregateStatus (resultsFor results n)) := by
      simp only [writeStatusCell, if_pos hres]
    conv_lhs => rw [writeStatusCell]
    rw [hpad, if_pos hres, hout, List.set_set]
  · by_cases hcell : ((padTo (j + 1) row).getD j "" == "") = true
    · have hout : writeStatusCell j results n row = (padTo (j + 1) row).set j "Not Processed" := by
        simp only [writeStatusCell, if_neg hres, if_pos hcell]
      have hcell2 : ((writeStatusCell j results n row).getD j "" == "") = false := by
        rw [hout, getD_set_self _ _ _ _ hjlt]
        decide
      conv_lhs => rw [writeStatusCell]
      rw [hpad, if_neg hres, hcell2]
      simp
    · have hout : writeStatusCell j results n row = padTo (j + 1) row := by
        simp only [writeStatusCell, if_neg hres, if_neg hcell]
      conv_lhs => rw [writeStatusCell]
      rw [hpad, if_neg hres, hout, if_neg hcell]

theorem writeRowsFrom_idem (j : Nat) (results : List PatientResult) :
    ∀ (l : List (List String)) (n : Nat),
      writeRowsFrom j results n (writeRowsFrom j results n l) = writeRowsFrom j results n l := by
  intro l
  induction l with
  | nil => intro n; rfl
  | cons row rest ih =>
      intro n
      simp only [writeRowsFrom, writeStatusCell_idem, ih]

/-- Claim C6 (amended): on every non-empty sheet with at most one pre-existing
Status column, the Status Writer is idempotent — the second run reproduces the
first run's sheet exactly, so the Status column content is unchanged and no
duplicate Status column appears. -/
theorem claim_C6_idempotent (rows : List (List String)) (results : List PatientResult)
    (hne : rows ≠ []) (hdup : (rows.headD []).countP isStatusHeader ≤ 1) :
    updateExcelRows (updateExcelRows rows results) results = updateExcelRows rows results := by
  obtain ⟨h', t', j, hfix, hjlen, hfind, hcount, hlast⟩ := fixStatus_out rows hne hdup
  have hout : updateExcelRows rows results = h' :: writeRowsFrom j results 2 t' := by
    unfold updateExcelRows
    rw [hfix]
  have hfix2 : fixStatusColumn (h' :: writeRowsFrom j results 2 t') =
      (h' :: writeRowsFrom j results 2 t', j) := by
    simp only [fixStatusColumn, List.headD_cons, hfind]
    rw [if_neg (by omega : ¬ (j + 1 < h'.length))]
  rw [hout]
  unfold updateExcelRows
  rw [hfix2]
  simp only [writeRowsFrom_idem]

/-- Claim C6 counterexample: with two pre-existing Status columns and a data
row wider than the header, the second run changes both the sheet and the
trailing status column's content, and the output keeps two Status columns. -/
theorem claim_C6_counterexample :
    updateExcelRows (updateExcelRows [["Status", "Status"], ["a", "b", "c"]] []) [] ≠
      updateExcelRows [["Status", "Status"], ["a", "b", "c"]] [] ∧
    lastColumn (updateExcelRows (updateExcelRows [["Status", "Status"], ["a", "b", "c"]] []) []) ≠
      lastColumn (updateExcelRows [["Status", "Status"], ["a", "b", "c"]] []) ∧
    ((updateExcelRows [["Status", "Status"], ["a", "b", "c"]] []).headD []).countP
      isStatusHeader = 2 := by
  refine ⟨by decide, by decide, by decide⟩

/-- Witness for C6 at a concrete sheet and result set. -/
theorem claim_C6_witness :
    (([["A", "Status"], ["x", ""]] : List (List String)) ≠ [] ∧
      (([["A", "Status"], ["x", ""]] : List (List String)).headD []).countP isStatusHeader ≤ 1) ∧
    updateExcelRows (updateExcelRows [["A", "Status"], ["x", ""]]
        [PatientResult.mk 2 "Billed" ""]) [PatientResult.mk 2 "Billed" ""] =
      updateExcelRows [["A", "Status"], ["x", ""]] [PatientResult.mk 2 "Billed" ""] :=
  ⟨⟨by decide, by decide⟩,
    claim_C6_idempotent [["A", "Status"], ["x", ""]] [PatientResult.mk 2 "Billed" ""]
      (by decide) (by decide)⟩

theorem writeRowsFrom_getElem (j : Nat) (results : List PatientResult) :
    ∀ (l : List (List String)) (n i : Nat),
      (writeRowsFrom j results n l)[i]? =
        (l[i]?).map (fun row => writeStatusCell j results (n + i) row) := by
  intro l
  induction l with
  | nil => intro n i; simp [writeRowsFrom]
  | cons row rest ih =>
      intro n i
      cases i with
      | zero => simp [writeRowsFrom]
      | succ i' =>
          simp only [writeRowsFrom, List.getElem?_cons_succ, ih (n + 1) i']
          have harith : n + 1 + i' = n + (i' + 1) := by omega
          rw [harith]

/-- Claim C7: for every data row of the (column-repaired) sheet, the Status
Writer writes the aggregated status when one exists for that row's Excel row
number, overwriting the cell; otherwise it writes `"Not Processed"` into an
empty cell and leaves a non-empty cell unchanged. -/
theorem claim_C7_cell_rule (rows : List (List String)) (results : List PatientResult)
    (i : Nat) (row : List String)
    (hrow : ((fixStatusColumn rows).1.drop 1)[i]? = some row) :
    ∃ out, ((updateExcelRows rows results).drop 1)[i]? = some out ∧
      ((resultsFor results (i + 2)) ≠ [] →
        out.getD (fixStatusColumn rows).2 "" = aggregateStatus (resultsFor results (i + 2))) ∧
      ((resultsFor results (i + 2)) = [] → row.getD (fixStatusColumn rows).2 "" = "" →
        out.getD (fixStatusColumn rows).2 "" = "Not Processed") ∧
      ((resultsFor results (i + 2)) = [] → row.getD (fixStatusColumn rows).2 "" ≠ "" →
        out.getD (fixStatusColumn rows).2 "" = row.getD (fixStatusColumn rows).2 "") := by
  rcases hfx : fixStatusColumn rows with ⟨rows1, j⟩
  rcases rows1 with _ | ⟨h', t'⟩
  · rw [hfx] at hrow
    simp at hrow
  rw [hfx] at hrow
  simp only [List.drop_one, List.tail_cons] at hrow
  have hupd : updateExcelRows rows results = h' :: writeRowsFrom j results 2 t' := by
    unfold updateExcelRows
    rw [hfx]
  have hjlt : j < (padTo (j + 1) row).length := padTo_length_ge (j + 1) row
  refine ⟨writeStatusCell j results (2 + i) row, ?_, ?_, ?_, ?_⟩
  · rw [hupd]
    simp only [List.drop_one, List.tail_cons, writeRowsFrom_getElem, hrow, Option.map_some']
  · intro hres
    have hpos : (resultsFor results (i + 2)).length > 0 :=
      List.length_pos.mpr hres
    have h2i : 2 + i = i + 2 := by omega
    simp only [writeStatusCell, h2i, if_pos hpos]
    exact getD_set_self _ _ _ _ hjlt
  · intro hres hcell
    have hnpos : ¬ (resultsFor results (i + 2)).length > 0 := by
      rw [hres]; simp
    have hcell1 : ((padTo (j + 1) row).getD j "" == "") = true := by
      rw [padTo_getD, hcell]
      decide
    have h2i : 2 + i = i + 2 := by omega
    simp only [writeStatusCell, h2i, if_neg hnpos, if_pos hcell1]
    exact getD_set_self _ _ _ _ hjlt
  · intro hres hcell
    have hnpos : ¬ (resultsFor results (i + 2)).length > 0 := by
      rw [hres]; simp
    have hcell1 : ((padTo (j + 1) row).getD j "" == "") = false := by
      rw [padTo_getD]
      exact beq_eq_false_iff_ne.mpr hcell
    have h2i : 2 + i = i + 2 := by omega
    simp only [writeStatusCell, h2i, if_neg hnpos, hcell1, Bool.false_eq_true, if_false]
    exact padTo_getD _ _ _

/-- Witness for C7 at a concrete sheet: one processed data row. -/
theorem claim_C7_witness :
    (((fixStatusColumn [["A", "Status"], ["x", ""], ["y", "z"]]).1.drop 1)[0]? =
      some ["x", ""]) ∧
    (∃ out, ((updateExcelRows [["A", "Status"], ["x", ""], ["y", "z"]]
        [PatientResult.mk 2 "Billed" ""]).drop 1)[0]? = some out ∧
      ((resultsFor [PatientResult.mk 2 "Billed" ""] (0 + 2)) ≠ [] →
        out.getD (fixStatusColumn [["A", "Status"], ["x", ""], ["y", "z"]]).2 "" =
          aggregateStatus (resultsFor [PatientResult.mk 2 "Billed" ""] (0 + 2))) ∧
      ((resultsFor [PatientResult.mk 2 "Billed" ""] (0 + 2)) = [] →
        (["x", ""] : List String).getD (fixStatusColumn
          [["A", "Status"], ["x", ""], ["y", "z"]]).2 "" = "" →
        out.getD (fixStatusColumn [["A", "Status"], ["x", ""], ["y", "z"]]).2 "" =
          "Not Processed") ∧
      ((resultsFor [PatientResult.mk 2 "Billed" ""] (0 + 2)) = [] →
        (["x", ""] : List String).getD (fixStatusColumn
          [["A", "Status"], ["x", ""], ["y", "z"]]).2 "" ≠ "" →
        out.getD (fixStatusColumn [["A", "Status"], ["x", ""], ["y", "z"]]).2 "" =
          (["x", ""] : List String).getD (fixStatusColumn
            [["A", "Status"], ["x", ""], ["y", "z"]]).2 "")) :=
  ⟨by decide, claim_C7_cell_rule [["A", "Status"], ["x", ""], ["y", "z"]]
      [PatientResult.mk 2 "Billed" ""] 0 ["x", ""] (by decide)⟩

/-- Claim C8 counterexample: a sheet whose Status column already sits at the
last position with recorded width 30: after the write, its width is the
default 15, not the pre-existing 30. -/
theorem claim_C8_counterexample :
    findStatusIdx ["A", "Status"] = some 1 ∧
    (updateOriginalExcel (Sheet.mk [["A", "Status"], ["x", "y"]] (some [20, 30])) []).cols =
      some [20, 15] ∧
    (((updateOriginalExcel (Sheet.mk [["A", "Status"], ["x", "y"]] (some [20, 30])) []).cols.getD
      []).getD 1 0 ≠ ((some [20, 30] : Option (List Nat)).getD []).getD 1 0) := by
  refine ⟨by decide, by decide, by decide⟩

theorem getD_append_at_length {α : Type} (l : List α) (a d : α) :
    (l ++ [a]).getD l.length d = a := by
  induction l with
  | nil => simp
  | cons x xs ih => simp [ih]

theorem getD_append_left {α : Type} (l l2 : List α) (k : Nat) (d : α) (h : k < l.length) :
    (l ++ l2).getD k d = l.getD k d := by
  induction l generalizing k with
  | nil => simp at h
  | cons x xs ih =>
      cases k with
      | zero => simp
      | succ k' => simpa using ih k' (by simpa using h)

/-- Claim C8 (amended): when the input sheet already has a Status column at
the last position and a width entry for it, the writer assigns the default
width 15 to the Status column (overwriting its pre-existing width) and
preserves the widths of all other columns; a newly created Status column also
receives the default width — appended when the recorded width list ends
before the new column, written in place when it reaches it, and as part of an
all-default width list when the sheet recorded no widths. -/
theorem claim_C8_width_default (s : Sheet) (results : List PatientResult) :
    (∀ (cs : List Nat) (j : Nat), s.cols = some cs →
      findStatusIdx (s.rows.headD []) = some j →
      ¬ (j + 1 < (s.rows.headD []).length) → j < cs.length →
      (updateOriginalExcel s results).cols = some (cs.set j 15) ∧
      (cs.set j 15).getD j 0 = 15 ∧
      (∀ k, k ≠ j → (cs.set j 15).getD k 0 = cs.getD k 0)) ∧
    (∀ cs : List Nat, s.rows ≠ [] → s.cols = some cs →
      findStatusIdx (s.rows.headD []) = none →
      ((cs.length ≤ (s.rows.headD []).length →
        (updateOriginalExcel s results).cols = some (cs ++ [15]) ∧
        (cs.length = (s.rows.headD []).length →
          (cs ++ [15]).getD (s.rows.headD []).length 0 = 15) ∧
        (∀ k, k < cs.length → (cs ++ [15]).getD k 0 = cs.getD k 0)) ∧
       ((s.rows.headD []).length < cs.length →
        (updateOriginalExcel s results).cols =
          some (cs.set (s.rows.headD []).length 15) ∧
        (cs.set (s.rows.headD []).length 15).getD (s.rows.headD []).length 0 = 15))) ∧
    (s.rows ≠ [] → s.cols = none → findStatusIdx (s.rows.headD []) = none →
      (updateOriginalExcel s results).cols =
        some (((s.rows.headD [] ++ ["Status"]).map (fun _ => (15 : Nat))).set
          (s.rows.headD []).length 15) ∧
      (((s.rows.headD [] ++ ["Status"]).map (fun _ => (15 : Nat))).set
          (s.rows.headD []).length 15).getD (s.rows.headD []).length 0 = 15) := by
  refine ⟨?_, ?_, ?_⟩
  · intro cs j hcols hfind hlast hj
    have hfx : fixStatusColumn s.rows = (s.rows, j) := by
      simp only [fixStatusColumn, hfind, if_neg hlast]
    refine ⟨?_, getD_set_self cs j 15 0 hj, fun k hk => getD_set_ne cs j k 15 0 hk⟩
    unfold updateOriginalExcel
    rw [hfx]
    simp only [updateCols, hcols]
    rw [if_neg (by omega : ¬ (cs.length ≤ j))]
  · intro cs hne hcols hfind
    rcases hrows : s.rows with _ | ⟨hd, t⟩
    · exact absurd hrows hne
    rw [hrows] at hfind
    simp only [List.headD_cons] at hfind
    have hfx : fixStatusColumn (hd :: t) =
        ((hd ++ ["Status"]) :: t.map (fun r => padTo (hd.length + 1) r), hd.length) := by
      simp only [fixStatusColumn, List.headD_cons, hfind]
      rfl
    have hcolsout : (updateOriginalExcel s results).cols =
        some (updateCols (some cs) (hd ++ ["Status"]) hd.length) := by
      unfold updateOriginalExcel
      rw [hrows, hfx, hcols]
      rfl
    constructor
    · intro hle
      simp only [List.headD_cons] at hle
      refine ⟨?_, ?_, ?_⟩
      · rw [hcolsout]
        simp only [updateCols, if_pos hle]
      · intro heq
        simp only [List.headD_cons] at heq ⊢
        rw [← heq]
        exact getD_append_at_length cs 15 0
      · intro k hk
        exact getD_append_left cs [15] k 0 hk
    · intro hgt
      simp only [List.headD_cons] at hgt
      constructor
      · simp only [List.headD_cons]
        rw [hcolsout]
        simp only [updateCols]
        rw [if_neg (by omega : ¬ (cs.length ≤ hd.length))]
      · simp only [List.headD_cons]
        exact getD_set_self cs hd.length 15 0 hgt
  · intro hne hcols hfind
    rcases hrows : s.rows with _ | ⟨hd, t⟩
    · exact absurd hrows hne
    rw [hrows] at hfind
    simp only [List.headD_cons] at hfind
    have hfx : fixStatusColumn (hd :: t) =
        ((hd ++ ["Status"]) :: t.map (fun r => padTo (hd.length + 1) r), hd.length) := by
      simp only [fixStatusColumn, List.headD_cons, hfind]
      rfl
    have hlen : hd.length < ((hd ++ ["Status"]).map (fun _ => (15 : Nat))).length := by
      simp
    have hcolsout : (updateOriginalExcel s results).cols =
        some (updateCols none (hd ++ ["Status"]) hd.length) := by
      unfold updateOriginalExcel
      rw [hrows, hfx, hcols]
      rfl
    constructor
    · simp only [List.headD_cons]
      rw [hcolsout]
      simp only [updateCols]
    · simp only [List.headD_cons]
      exact getD_set_self _ hd.length 15 0 hlen

/-- Witness for C8: a concrete sheet with a pre-existing last-position Status
column and widths, and a concrete sheet without a Status column whose width
list is extended by the default width for the new column. -/
theorem claim_C8_witness :
    ((Sheet.mk [["A", "Status"], ["x", "y"]] (some [20, 30])).cols = some [20, 30] ∧
      findStatusIdx (((Sheet.mk [["A", "Status"], ["x", "y"]] (some [20, 30])).rows.headD [])) =
        some 1 ∧
      ¬ (1 + 1 < (((Sheet.mk [["A", "Status"], ["x", "y"]] (some [20, 30])).rows.headD
        []).length)) ∧
      1 < ([20, 30] : List Nat).length) ∧
    ((updateOriginalExcel (Sheet.mk [["A", "Status"], ["x", "y"]] (some [20, 30]))
        []).cols = some (([20, 30] : List Nat).set 1 15) ∧
      (([20, 30] : List Nat).set 1 15).getD 1 0 = 15 ∧
      (∀ k, k ≠ 1 → (([20, 30] : List Nat).set 1 15).getD k 0 =
        ([20, 30] : List Nat).getD k 0)) ∧
    (findStatusIdx (((Sheet.mk [["A", "B"], ["x", "y"]] (some [7, 9])).rows.headD [])) = none ∧
      (updateOriginalExcel (Sheet.mk [["A", "B"], ["x", "y"]] (some [7, 9])) []).cols =
        some (([7, 9] : List Nat) ++ [15]) ∧
      (([7, 9] : List Nat) ++ [15]).getD 2 0 = 15) := by
  refine ⟨⟨by decide, by decide, by decide, by decide⟩, ?_, ?_⟩
  · exact (claim_C8_width_default (Sheet.mk [["A", "Status"], ["x", "y"]] (some [20, 30])) []).1
      [20, 30] 1 (by decide) (by decide) (by decide) (by decide)
  · have H := ((claim_C8_width_default (Sheet.mk [["A", "B"], ["x", "y"]] (some [7, 9])) []).2.1
      [7, 9] (by decide) (by decide) (by decide)).1 (by decide)
    exact ⟨by decide, H.1, H.2.1 (by decide)⟩

theorem resolveLoop_first_ok {α : Type} (h : α) (rest : List (StrategyOutcome α)) :
    ∀ (errs : List String) (n : Nat),
      resolveLoop n (errs.map (fun m => (StrategyOutcome.err m : StrategyOutcome α)) ++
        StrategyOutcome.ok h :: rest) = ResolveOutcome.resolved h (n + errs.length + 1) := by
  intro errs
  induction errs with
  | nil => intro n; rfl
  | cons e es ih =>
      intro n
      have hne : es.map (fun m => (StrategyOutcome.err m : StrategyOutcome α)) ++
          StrategyOutcome.ok h :: rest ≠ [] := by
        cases es <;> simp
      rcases hL : es.map (fun m => (StrategyOutcome.err m : StrategyOutcome α)) ++
          StrategyOutcome.ok h :: rest with _ | ⟨r, rs⟩
      · exact absurd hL hne
      · simp only [List.map_cons, List.cons_append, resolveLoop, hL]
        rw [← hL, ih (n + 1)]
        have : n + 1 + es.length + 1 = n + (es.length + 1) + 1 := by omega
        rw [this]
        simp [List.length_cons]

theorem resolveLoop_all_err {α : Type} :
    ∀ (errs : List String) (lastMsg : String) (n : Nat),
      resolveLoop n ((errs ++ [lastMsg]).map
          (fun m => (StrategyOutcome.err m : StrategyOutcome α))) =
        ResolveOutcome.failed
          ("All strategies failed to find Custom ID filter. Last error: " ++ lastMsg)
          (n + errs.length + 1) := by
  intro errs
  induction errs with
  | nil => intro lastMsg n; rfl
  | cons e es ih =>
      intro lastMsg n
      have hne : (es ++ [lastMsg]).map
          (fun m => (StrategyOutcome.err m : StrategyOutcome α)) ≠ [] := by
        cases es <;> simp
      rcases hL : (es ++ [lastMsg]).map
          (fun m => (StrategyOutcome.err m : StrategyOutcome α)) with _ | ⟨r, rs⟩
      · exact absurd hL hne
      · have hr : ∃ m, r = StrategyOutcome.err m := by
          rcases hmem : r with h' | m
          · exfalso
            have : StrategyOutcome.ok h' ∈ (es ++ [lastMsg]).map
                (fun m => (StrategyOutcome.err m : StrategyOutcome α)) := by
              rw [hL, ← hmem]
              exact List.mem_cons_self r rs
            obtain ⟨m, _, hm⟩ := List.mem_map.mp this
            exact StrategyOutcome.noConfusion hm
          · exact ⟨m, rfl⟩
        obtain ⟨m, rfl⟩ := hr
        simp only [List.cons_append, List.map_cons, resolveLoop, hL]
        rw [← hL, ih lastMsg (n + 1)]
        have : n + 1 + es.length + 1 = n + (es.length + 1) + 1 := by omega
        rw [this]
        simp [List.length_cons]

/-- Claim C3 (amended): the resolver evaluates strategies in declaration
order and stops at the first success — with the first K−1 failing it attempts
exactly K — and when all K fail it raises a failure whose message is built
from the LAST attempt's failure reason. -/
theorem claim_C3_resolver_order {α : Type} :
    (∀ (errs : List String) (h : α) (rest : List (StrategyOutcome α)),
      clickCustomIdFilterModel (errs.map (fun m => (StrategyOutcome.err m : StrategyOutcome α)) ++
          StrategyOutcome.ok h :: rest) = ResolveOutcome.resolved h (errs.length + 1)) ∧
    (∀ (errs : List String) (lastMsg : String),
      clickCustomIdFilterModel ((errs ++ [lastMsg]).map
          (fun m => (StrategyOutcome.err m : StrategyOutcome α))) =
        ResolveOutcome.failed
          ("All strategies failed to find Custom ID filter. Last error: " ++ lastMsg)
          (errs.length + 1)) := by
  constructor
  · intro errs h rest
    have := resolveLoop_first_ok h rest errs 0
    simpa [clickCustomIdFilterModel] using this
  · intro errs lastMsg
    have := resolveLoop_all_err (α := α) errs lastMsg 0
    simpa [clickCustomIdFilterModel] using this

/-- Claim C3 counterexample: with two failing strategies the raised failure
message carries only the second (last) reason; the first attempt's reason does
not occur in it. -/
theorem claim_C3_counterexample :
    clickCustomIdFilterModel
        [(StrategyOutcome.err "first strategy reason" : StrategyOutcome Unit),
         StrategyOutcome.err "second strategy reason"] =
      ResolveOutcome.failed
        "All strategies failed to find Custom ID filter. Last error: second strategy reason" 2 ∧
    strContains "first strategy reason"
      "All strategies failed to find Custom ID filter. Last error: second strategy reason" =
      false ∧
    strContains "second strategy reason"
      "All strategies failed to find Custom ID filter. Last error: second strategy reason" =
      true := by
  refine ⟨by decide, by decide, by decide⟩

/-- Claim C4 counterexample: with the sentinel billing value but an empty DOS
value in the row, the sentinel matches yet the service-date fill step does not
run (the code guards each fill with the presence of a value). -/
theorem claim_C4_counterexample :
    jsToUpper (excelBillingStatusOf "QHSLAB") = "QHSLAB" ∧
    isCancelledAppointment "QHSLAB" = false ∧
    (processPatientClaimModel (PatientInput.mk "QHSLAB" "" "F33.1")).fillsServiceDate = false := by
  refine ⟨by decide, by decide, by decide⟩

/-- Claim C4 (amended): the Patient Processor compares the trimmed raw billing
classification case-insensitively against the single sentinel `"QHSLAB"`; on a
match it runs the service-date and diagnosis-code fill steps for whichever of
the two values is non-empty and sets the classification to `"Billed"`; on any
other value, including empty, it skips both fill steps entirely and sets the
classification to `"Appt. Cancelled"`. -/
theorem claim_C4_sentinel_branch (p : PatientInput) :
    (jsToUpper (excelBillingStatusOf p.billingStatusRaw) = "QHSLAB" →
      (processPatientClaimModel p).fillsServiceDate = (p.dosValue != "") ∧
      (processPatientClaimModel p).fillsDiagnosis = (p.icdValue != "") ∧
      (processPatientClaimModel p).billingClassification = "Billed") ∧
    (jsToUpper (excelBillingStatusOf p.billingStatusRaw) ≠ "QHSLAB" →
      (processPatientClaimModel p).fillsServiceDate = false ∧
      (processPatientClaimModel p).fillsDiagnosis = false ∧
      (processPatientClaimModel p).billingClassification = "Appt. Cancelled") := by
  constructor
  · intro hmatch
    have hc : isCancelledAppointment p.billingStatusRaw = false := by
      simp [isCancelledAppointment, hmatch]
    have hb : (jsToUpper (excelBillingStatusOf p.billingStatusRaw) == "QHSLAB") = true := by
      simp [hmatch]
    refine ⟨?_, ?_, ?_⟩
    · simp [processPatientClaimModel, hc]
    · simp [processPatientClaimModel, hc]
    · simp [processPatientClaimModel, targetBillingStatus, hb]
  · intro hmatch
    have hc : isCancelledAppointment p.billingStatusRaw = true := by
      simp [isCancelledAppointment, bne_iff_ne, hmatch]
    have hb : (jsToUpper (excelBillingStatusOf p.billingStatusRaw) == "QHSLAB") = false := by
      simp [hmatch]
    refine ⟨?_, ?_, ?_⟩
    · simp [processPatientClaimModel, hc]
    · simp [processPatientClaimModel, hc]
    · simp [processPatientClaimModel, targetBillingStatus, hb, ite_self]

/-- Witness for C4: the sentinel spelled in lower case with surrounding
whitespace still matches and yields "Billed"; an empty value yields
"Appt. Cancelled" with both fills skipped. -/
theorem claim_C4_witness :
    (jsToUpper (excelBillingStatusOf " qhslab ") = "QHSLAB" ∧
      (processPatientClaimModel (PatientInput.mk " qhslab " "12/31/2025" "F33.4")).fillsServiceDate =
        ("12/31/2025" != "") ∧
      (processPatientClaimModel (PatientInput.mk " qhslab " "12/31/2025" "F33.4")).fillsDiagnosis =
        ("F33.4" != "") ∧
      (processPatientClaimModel (PatientInput.mk " qhslab " "12/31/2025" "F33.4")).billingClassification =
        "Billed") ∧
    (jsToUpper (excelBillingStatusOf "") ≠ "QHSLAB" ∧
      (processPatientClaimModel (PatientInput.mk "" "12/31/2025" "F33.4")).fillsServiceDate = false ∧
      (processPatientClaimModel (PatientInput.mk "" "12/31/2025" "F33.4")).fillsDiagnosis = false ∧
      (processPatientClaimModel (PatientInput.mk "" "12/31/2025" "F33.4")).billingClassification =
        "Appt. Cancelled") :=
  ⟨⟨by decide,
    (claim_C4_sentinel_branch (PatientInput.mk " qhslab " "12/31/2025" "F33.4")).1 (by decide)⟩,
   ⟨by decide,
    (claim_C4_sentinel_branch (PatientInput.mk "" "12/31/2025" "F33.4")).2 (by decide)⟩⟩

/-- Claim C9: an MRN filter failure aborts the row with one Failed result
carrying the captured message and never reaches the patient phase; with the
MRN filter applied, the row reaches the patient phase whatever the optional
Custom ID / Appointment Date filter outcomes were (its results do not depend
on them), and the trace records exactly the optional filters that succeeded. -/
theorem claim_C9_filter_policy (row : InputRow) (env : RowEnv) :
    (∀ msg, env.mrnOutcome = FilterOutcome.err msg →
      (processRowModel row env).1 =
        [PatientResult.mk row.rowNumber "Failed" ("Failed to apply MRN filter: " ++ msg)] ∧
      (processRowModel row env).2.reachedPatientPhase = false) ∧
    (env.mrnOutcome = FilterOutcome.ok →
      (processRowModel row env).2.reachedPatientPhase = true ∧
      (∀ c a : FilterOutcome,
        (processRowModel row (RowEnv.mk c FilterOutcome.ok a env.patientStatuses)).1 =
          (processRowModel row env).1) ∧
      ((processRowModel row env).2.customIdApplied = true ↔
        (jsTrim row.customId ≠ "" ∧ env.customIdOutcome = FilterOutcome.ok)) ∧
      ((processRowModel row env).2.apptApplied = true ↔
        (row.appointmentDateValue ≠ none ∧ env.apptOutcome = FilterOutcome.ok))) := by
  constructor
  · intro msg hmrn
    constructor
    · simp only [processRowModel, hmrn]
    · simp only [processRowModel, hmrn]
  · intro hmrn
    refine ⟨?_, ?_, ?_, ?_⟩
    · rcases henv : env.patientStatuses with _ | ⟨st, sts⟩ <;>
        simp [processRowModel, hmrn, henv]
    · intro c a
      rcases henv : env.patientStatuses with _ | ⟨st, sts⟩ <;>
        simp [processRowModel, hmrn, henv]
    · by_cases hcid : jsTrim row.customId != ""
      · rcases hco : env.customIdOutcome with _ | m
        · simp only [processRowModel, hmrn, hcid, hco, if_true]
          rcases henv : env.patientStatuses with _ | ⟨st, sts⟩ <;>
            simp [henv, hco, bne_iff_ne.mp hcid]
        · simp only [processRowModel, hmrn, hcid, hco, if_true]
          rcases henv : env.patientStatuses with _ | ⟨st, sts⟩ <;>
            simp [henv, hco, bne_iff_ne.mp hcid]
      · have hcid' : ¬ (jsTrim row.customId ≠ "") := by
          simpa [bne_iff_ne] using hcid
        simp only [processRowModel, hmrn, hcid, Bool.false_eq_true, if_false]
        rcases henv : env.patientStatuses with _ | ⟨st, sts⟩ <;>
          simp [henv, hcid']
    · rcases hadv : row.appointmentDateValue with _ | d
      · simp only [processRowModel, hmrn, hadv]
        rcases henv : env.patientStatuses with _ | ⟨st, sts⟩ <;> simp [henv]
      · rcases hao : env.apptOutcome with _ | m
        · simp only [processRowModel, hmrn, hadv, hao]
          rcases henv : env.patientStatuses with _ | ⟨st, sts⟩ <;> simp [henv]
        · simp only [processRowModel, hmrn, hadv, hao]
          rcases henv : env.patientStatuses with _ | ⟨st, sts⟩ <;> simp [henv]

/-- Witness for C9: a concrete row whose optional Custom ID filter fails while
the MRN filter succeeds, and one whose MRN filter fails. -/
theorem claim_C9_witness :
    ((RowEnv.mk (FilterOutcome.err "custom id broke") FilterOutcome.ok FilterOutcome.ok
        ["Billed"]).mrnOutcome = FilterOutcome.ok ∧
      (processRowModel (InputRow.mk 2 "m1" "c1" (some "12/31/2025"))
        (RowEnv.mk (FilterOutcome.err "custom id broke") FilterOutcome.ok FilterOutcome.ok
          ["Billed"])).2.reachedPatientPhase = true) ∧
    ((RowEnv.mk FilterOutcome.ok (FilterOutcome.err "boom") FilterOutcome.ok
        ["Billed"]).mrnOutcome = FilterOutcome.err "boom" ∧
      (processRowModel (InputRow.mk 2 "m1" "c1" (some "12/31/2025"))
        (RowEnv.mk FilterOutcome.ok (FilterOutcome.err "boom") FilterOutcome.ok
          ["Billed"])).1 =
        [PatientResult.mk 2 "Failed" ("Failed to apply MRN filter: " ++ "boom")]) :=
  ⟨⟨rfl, ((claim_C9_filter_policy (InputRow.mk 2 "m1" "c1" (some "12/31/2025"))
      (RowEnv.mk (FilterOutcome.err "custom id broke") FilterOutcome.ok FilterOutcome.ok
        ["Billed"])).2 rfl).1⟩,
   ⟨rfl, (((claim_C9_filter_policy (InputRow.mk 2 "m1" "c1" (some "12/31/2025"))
      (RowEnv.mk FilterOutcome.ok (FilterOutcome.err "boom") FilterOutcome.ok
        ["Billed"])).1 "boom" rfl).1)⟩⟩

theorem flips_cons_cons (b c : Bool) (l : List Bool) :
    flips (b :: c :: l) = (if !b && c then 1 else 0) + flips (c :: l) := rfl

theorem stepGates_mono_claims (s : SessionGates) (e : GateEnv)
    (h : s.claimsClickedOnce = true) : (stepGates s e).1.claimsClickedOnce = true := by
  obtain ⟨a, b, c, d⟩ := s
  obtain ⟨w, x, y, z⟩ := e
  cases a with
  | false => simp at h
  | true => revert b c d w x y z; decide

theorem stepGates_mono_nav (s : SessionGates) (e : GateEnv)
    (h : s.accountsPageNavigated = true) : (stepGates s e).1.accountsPageNavigated = true := by
  obtain ⟨a, b, c, d⟩ := s
  obtain ⟨w, x, y, z⟩ := e
  cases b with
  | false => simp at h
  | true => revert a c d w x y z; decide

theorem stepGates_mono_entity (s : SessionGates) (e : GateEnv)
    (h : s.entitySourceFilterApplied = true) :
    (stepGates s e).1.entitySourceFilterApplied = true := by
  obtain ⟨a, b, c, d⟩ := s
  obtain ⟨w, x, y, z⟩ := e
  cases c with
  | false => simp at h
  | true => revert a b d w x y z; decide

theorem stepGates_mono_assess (s : SessionGates) (e : GateEnv)
    (h : s.assessmentResourceFilterApplied = true) :
    (stepGates s e).1.assessmentResourceFilterApplied = true := by
  obtain ⟨a, b, c, d⟩ := s
  obtain ⟨w, x, y, z⟩ := e
  cases d with
  | false => simp at h
  | true => revert a b c w x y z; decide

theorem statesFrom_map_cons (proj : SessionGates → Bool) (s : SessionGates)
    (envs : List GateEnv) :
    ∃ tlb, (statesFrom s envs).map proj = proj s :: tlb := by
  cases envs <;> exact ⟨_, rfl⟩

theorem flips_statesFrom_le (proj : SessionGates → Bool)
    (mono : ∀ s e, proj s = true → proj (stepGates s e).1 = true) :
    ∀ (envs : List GateEnv) (s : SessionGates),
      flips ((statesFrom s envs).map proj) ≤ 1 ∧
      (proj s = true → flips ((statesFrom s envs).map proj) = 0) := by
  intro envs
  induction envs with
  | nil =>
      intro s
      have h0 : flips ((statesFrom s []).map proj) = 0 := rfl
      exact ⟨by rw [h0]; omega, fun _ => h0⟩
  | cons e rest ih =>
      intro s
      obtain ⟨tlb, htlb⟩ := statesFrom_map_cons proj (stepGates s e).1 rest
      have hmap : (statesFrom s (e :: rest)).map proj =
          proj s :: proj (stepGates s e).1 :: tlb := by
        simp only [statesFrom, List.map_cons, htlb]
      have hih := ih (stepGates s e).1
      rw [htlb] at hih
      constructor
      · rw [hmap, flips_cons_cons]
        by_cases hs : proj s = true
        · have h1 : proj (stepGates s e).1 = true := mono s e hs
          have h2 := hih.2 h1
          rw [h1] at h2
          rw [hs, h1]
          show 0 + flips (true :: tlb) ≤ 1
          omega
        · have hs' : proj s = false := by
            rcases hb : proj s with _ | _
            · rfl
            · exact absurd hb hs
          rcases h1 : proj (stepGates s e).1 with _ | _
          · have h2 := hih.1
            rw [h1] at h2
            rw [hs']
            show 0 + flips (false :: tlb) ≤ 1
            omega
          · have h2 := hih.2 h1
            rw [h1] at h2
            rw [hs']
            show 1 + flips (true :: tlb) ≤ 1
            omega
      · intro hs
        have h1 : proj (stepGates s e).1 = true := mono s e hs
        have h2 := hih.2 h1
        rw [h1] at h2
        rw [hmap, flips_cons_cons, hs, h1]
        show 0 + flips (true :: tlb) = 0
        omega

theorem stepGates_allTrue (w x y z : Bool) :
    stepGates (SessionGates.mk true true true true) (GateEnv.mk w x y z) =
      (SessionGates.mk true true true true, GateCounts.mk 0 0 0 0) := by
  revert w x y z
  decide

theorem runGates_allTrue (envs : List GateEnv) :
    runGates (SessionGates.mk true true true true) envs =
      (SessionGates.mk true true true true, GateCounts.mk 0 0 0 0) := by
  induction envs with
  | nil => rfl
  | cons e rest ih =>
      obtain ⟨w, x, y, z⟩ := e
      have h1 : runGates (SessionGates.mk true true true true) (GateEnv.mk w x y z :: rest) =
          ((runGates (SessionGates.mk true true true true) rest).1,
           addCounts (GateCounts.mk 0 0 0 0)
             (runGates (SessionGates.mk true true true true) rest).2) := rfl
      rw [h1, ih]
      rfl

/-- Claim C10 (amended): every session gate is monotone — it never resets, and
along any run its trace flips from false to true at most once; with the first
row's gated actions all succeeding, every gated action runs exactly once over
the whole run, however long; a gated action that fails leaves its gate unset
(and is retried on a later row, see the counterexample). -/
theorem claim_C10_gate_policy :
    (∀ (s : SessionGates) (e : GateEnv),
      (s.claimsClickedOnce = true → (stepGates s e).1.claimsClickedOnce = true) ∧
      (s.accountsPageNavigated = true → (stepGates s e).1.accountsPageNavigated = true) ∧
      (s.entitySourceFilterApplied = true → (stepGates s e).1.entitySourceFilterApplied = true) ∧
      (s.assessmentResourceFilterApplied = true →
        (stepGates s e).1.assessmentResourceFilterApplied = true)) ∧
    (∀ envs : List GateEnv,
      flips ((statesFrom initialGates envs).map SessionGates.claimsClickedOnce) ≤ 1 ∧
      flips ((statesFrom initialGates envs).map SessionGates.accountsPageNavigated) ≤ 1 ∧
      flips ((statesFrom initialGates envs).map SessionGates.entitySourceFilterApplied) ≤ 1 ∧
      flips ((statesFrom initialGates envs).map
        SessionGates.assessmentResourceFilterApplied) ≤ 1) ∧
    (∀ rest : List GateEnv,
      runGates initialGates (GateEnv.mk true true true true :: rest) =
        (SessionGates.mk true true true true, GateCounts.mk 1 1 1 1)) := by
  refine ⟨?_, ?_, ?_⟩
  · intro s e
    exact ⟨stepGates_mono_claims s e, stepGates_mono_nav s e,
      stepGates_mono_entity s e, stepGates_mono_assess s e⟩
  · intro envs
    exact ⟨(flips_statesFrom_le _ stepGates_mono_claims envs initialGates).1,
      (flips_statesFrom_le _ stepGates_mono_nav envs initialGates).1,
      (flips_statesFrom_le _ stepGates_mono_entity envs initialGates).1,
      (flips_statesFrom_le _ stepGates_mono_assess envs initialGates).1⟩
  · intro rest
    have h1 : runGates initialGates (GateEnv.mk true true true true :: rest) =
        ((runGates (SessionGates.mk true true true true) rest).1,
         addCounts (GateCounts.mk 1 1 1 1)
           (runGates (SessionGates.mk true true true true) rest).2) := rfl
    rw [h1, runGates_allTrue rest]
    rfl

/-- Claim C10 counterexample: when the Entity Source filter action fails on
the first row and succeeds on the second, the gated action executes twice in
the run — not exactly once. -/
theorem claim_C10_counterexample :
    (runGates initialGates [GateEnv.mk true true false true,
      GateEnv.mk true true true true]).2.entityRuns = 2 ∧
    (runGates initialGates [GateEnv.mk true true false true,
      GateEnv.mk true true true true]).2.entityRuns ≠ 1 := by
  refine ⟨by decide, by decide⟩

/-- Witness for C10: a set gate survives a step, and an all-success first row
yields exactly one execution of each gated action. -/
theorem claim_C10_witness :
    ((SessionGates.mk true false false false).claimsClickedOnce = true ∧
      (stepGates (SessionGates.mk true false false false)
        (GateEnv.mk true true true true)).1.claimsClickedOnce = true) ∧
    runGates initialGates [GateEnv.mk true true true true] =
      (SessionGates.mk true true true true, GateCounts.mk 1 1 1 1) :=
  ⟨⟨rfl, ((claim_C10_gate_policy.1 (SessionGates.mk true false false false)
      (GateEnv.mk true true true true)).1 rfl)⟩,
   claim_C10_gate_policy.2.2 []⟩

/-- Witness for C5 at two concrete permuted lists containing a priority
status. -/
theorem claim_C5_witness :
    ([PatientResult.mk 1 "Billed" "", PatientResult.mk 1 "Failed" ""] : List PatientResult).Perm
      [PatientResult.mk 1 "Failed" "", PatientResult.mk 1 "Billed" ""] ∧
    aggregateStatus [PatientResult.mk 1 "Billed" "", PatientResult.mk 1 "Failed" ""] =
      aggregateStatus [PatientResult.mk 1 "Failed" "", PatientResult.mk 1 "Billed" ""] :=
  ⟨by decide, claim_C5_perm_invariant
      [PatientResult.mk 1 "Billed" "", PatientResult.mk 1 "Failed" ""]
      [PatientResult.mk 1 "Failed" "", PatientResult.mk 1 "Billed" ""]
      (by decide)
      (Or.inl ⟨PatientResult.mk 1 "Billed" "", by decide, by decide⟩)⟩

/-- Witness for C3: two failing strategies then a success resolve on the
third attempt; three failures raise the last-error message after exactly three
attempts. -/
theorem claim_C3_witness :
    clickCustomIdFilterModel ((["e1", "e2"].map
        (fun m => (StrategyOutcome.err m : StrategyOutcome Unit))) ++
        StrategyOutcome.ok () :: []) = ResolveOutcome.resolved () (["e1", "e2"].length + 1) ∧
    clickCustomIdFilterModel ((["e1", "e2"] ++ ["e3"]).map
        (fun m => (StrategyOutcome.err m : StrategyOutcome Unit))) =
      ResolveOutcome.failed
        ("All strategies failed to find Custom ID filter. Last error: " ++ "e3")
        (["e1", "e2"].length + 1) :=
  ⟨(claim_C3_resolver_order (α := Unit)).1 ["e1", "e2"] () [],
   (claim_C3_resolver_order (α := Unit)).2 ["e1", "e2"] "e3"⟩
